import Mathlib

/-!
Shallow embedding of `src/sidecar/server.py`: a spaCy NER sidecar exposing
`POST /extract` and `GET /health`.  Texts are embedded as `List Char`
(Python strings are sequences of code points), Python ints as `ℤ`,
monotonic-clock readings and millisecond durations as `ℚ`.  The external
spaCy model is an opaque capability `NLP : List Char → List SpacyEnt`,
exactly as the spec treats it.
-/

namespace Sidecar

/-- One entity as produced by the external spaCy model: the span text
(`ent.text`), its label (`ent.label_`) and character offsets
(`ent.start_char`, `ent.end_char`). -/
structure SpacyEnt where
  text : List Char
  label_ : String
  start_char : ℤ
  end_char : ℤ
deriving DecidableEq, Repr

/-- The loaded spaCy pipeline `_nlp`, treated as an opaque capability:
given text, it returns a sequence of entities (`doc.ents`). -/
def NLP : Type := List Char → List SpacyEnt

/-- `class ExtractRequest(BaseModel): text: str`. -/
structure ExtractRequest where
  text : List Char
deriving DecidableEq, Repr

/-- `class Entity(BaseModel)`: span text, label, start/end character
offsets.  Python's keyword `end` is not a legal Lean field name, hence
`end_`. -/
structure Entity where
  text : List Char
  label : String
  start : ℤ
  end_ : ℤ
deriving DecidableEq, Repr

/-- `class ExtractResponse(BaseModel)`. -/
structure ExtractResponse where
  entities : List Entity
  has_entities : Bool
  duration_ms : ℚ
deriving DecidableEq, Repr

/-- The arguments the handler passes to `log.info` when entities were
found: the entity count, the raw duration (in ms, before `%.0f`
formatting) and the `(e.text, e.label)` pairs. -/
structure LogLine where
  count : ℕ
  duration : ℚ
  pairs : List (List Char × String)
deriving DecidableEq, Repr

/-- Python `round` on a number exactly representable as a rational:
round-half-to-even (banker's rounding) to the nearest integer. -/
def pyRoundInt (q : ℚ) : ℤ :=
  if q - (⌊q⌋ : ℚ) < 1/2 then ⌊q⌋
  else if 1/2 < q - (⌊q⌋ : ℚ) then ⌊q⌋ + 1
  else if ⌊q⌋ % 2 = 0 then ⌊q⌋ else ⌊q⌋ + 1

/-- Python `round(q, 1)`: round to one decimal place. -/
def pyRound1 (q : ℚ) : ℚ := (pyRoundInt (q * 10) : ℚ) / 10

/-- Python `input_text[start:end]` for in-range indices
`0 ≤ start ≤ end ≤ len(input_text)` (the only regime the spec's
property quantifies over): the characters at positions
`start, ..., end - 1`. -/
def pySlice (s : List Char) (a b : ℤ) : List Char :=
  (s.drop a.toNat).take (b - a).toNat

/-- The comprehension in `extract`: each spaCy entity is marshalled into
an `Entity(text=ent.text, label=ent.label_, start=ent.start_char,
end=ent.end_char)`, in order. -/
def marshalEnt (ent : SpacyEnt) : Entity :=
  { text := ent.text, label := ent.label_, start := ent.start_char, end_ := ent.end_char }

/-- What one call of the `extract` handler body produces: the HTTP
response and the `log.info` lines it emitted. -/
structure ExtractResult where
  response : ExtractResponse
  logs : List LogLine
deriving DecidableEq, Repr

/-- The body of the `/extract` handler, given the loaded model and the
two monotonic-clock readings `t0` (the `start = time.monotonic()` read,
taken just before `_nlp(req.text)`) and `t1` (the `time.monotonic()`
read taken just after it).  Mirrors `extract` in `server.py` line by
line: run the model, marshal its entities, compute
`duration = (t1 - t0) * 1000`, log when the entity list is non-empty,
and return the response with `has_entities = len(entities) > 0` and
`duration_ms = round(duration, 1)`. -/
def extract (nlp : NLP) (t0 t1 : ℚ) (req : ExtractRequest) : ExtractResult :=
  let entities := (nlp req.text).map marshalEnt
  let duration := (t1 - t0) * 1000
  { response :=
      { entities := entities
        has_entities := decide (entities.length > 0)
        duration_ms := pyRound1 duration }
    logs :=
      if entities ≠ [] then
        [{ count := entities.length
           duration := duration
           pairs := entities.map fun e => (e.text, e.label) }]
      else [] }

/-- The process-wide globals `_nlp` and `_model_name`, both `None`
before `main` has run. -/
structure ServerState where
  nlp : Option NLP
  model_name : Option String

/-- The state at import time: `_nlp = None`, `_model_name = None`. -/
def initialState : ServerState := { nlp := none, model_name := none }

/-- Invoking the `/extract` handler against the globals: when
`_nlp` is `None`, the call `_nlp(req.text)` raises (a `NoneType` object
is not callable), embedded as `none`; otherwise the handler body runs. -/
def extractHandler (st : ServerState) (t0 t1 : ℚ) (req : ExtractRequest) :
    Option ExtractResult :=
  match st.nlp with
  | none => none
  | some nlp => some (extract nlp t0 t1 req)

/-- The `/health` response `{"status": "ok", "model": _model_name}`;
`model` is `null` when `_model_name` is still `None`. -/
structure HealthResponse where
  status : String
  model : Option String
deriving DecidableEq, Repr

/-- The `/health` handler: reads the globals, writes nothing. -/
def health (st : ServerState) : HealthResponse :=
  { status := "ok", model := st.model_name }

/-- A JSON value, as far as validation of the flat body
`{"text": string}` needs to distinguish shapes: strings, numbers,
booleans, null, and anything composite. -/
inductive JsonValue where
  | str (s : List Char)
  | num (q : ℚ)
  | boolean (b : Bool)
  | null
  | composite
deriving DecidableEq, Repr

/-- A JSON object body: its fields in order. -/
def Body : Type := List (String × JsonValue)

/-- The single client-error outcome: FastAPI's 422 validation error. -/
inductive ClientError where
  | validationError
deriving DecidableEq, Repr

/-- Whether a looked-up `text` field holds a string. -/
def isStringField : Option JsonValue → Bool
  | some (JsonValue.str _) => true
  | _ => false

/-- Modelled from the spec: FastAPI/pydantic request validation for the
schema `class ExtractRequest(BaseModel): text: str` (the validation
machinery itself is library code outside this repository).  A body
validates exactly when its `text` field is present and holds a string;
otherwise a client error (422) is returned before the handler runs. -/
def validateExtractRequest (body : Body) : Except ClientError ExtractRequest :=
  match body.lookup "text" with
  | some (JsonValue.str s) => Except.ok { text := s }
  | _ => Except.error ClientError.validationError

/-- The full `POST /extract` route: validation first; the handler body
runs only on a validated request. -/
def extractRoute (st : ServerState) (t0 t1 : ℚ) (body : Body) :
    Except ClientError (Option ExtractResult) :=
  match validateExtractRequest body with
  | Except.error e => Except.error e
  | Except.ok req => Except.ok (extractHandler st t0 t1 req)

/-- The parsed command line: `--port` (default 8099) and `--model`
(default `en_core_web_sm`). -/
structure Args where
  port : ℤ
  model : String
deriving DecidableEq, Repr

/-- Outcome of `main`: either `uvicorn.run` was reached with the final
globals and port, or `spacy.load` raised and the process died with the
exception before any server start. -/
inductive MainResult where
  | serverStarted (st : ServerState) (port : ℤ)
  | loadFailed (st : ServerState) (err : String)

/-- `main()`: sets `_model_name = args.model`, then
`_nlp = spacy.load(_model_name)`; only if the load returns does control
reach `uvicorn.run(app, ...)`.  `spacy.load` is external, passed in as
`loadModel`; a raised exception is its `Except.error` case. -/
def main (loadModel : String → Except String NLP) (args : Args) : MainResult :=
  let st1 : ServerState := { nlp := none, model_name := some args.model }
  match loadModel args.model with
  | Except.error e => MainResult.loadFailed st1 e
  | Except.ok m => MainResult.serverStarted { st1 with nlp := some m } args.port

/-- One incoming HTTP request, with the clock readings an extract
request would observe. -/
inductive Request where
  | extractReq (t0 t1 : ℚ) (body : Body)
  | healthReq

/-- Effect of serving one request on the process-wide state: neither
handler assigns to the globals (no `global` statement outside `main`),
so the state after is the state before. -/
def stepState (st : ServerState) (r : Request) : ServerState :=
  match r with
  | Request.extractReq _ _ _ => st
  | Request.healthReq => st

/-- The globals after serving a sequence of requests. -/
def serveAll (st : ServerState) (reqs : List Request) : ServerState :=
  reqs.foldl stepState st

/-! Concrete values used by the witness theorems, following the worked
example of the spec (section 8). -/

/-- The spec's example input text. -/
def parisText : List Char := "Barack Obama visited Paris.".toList

/-- A concrete recognizer behaving as the spec's example describes on
the example text (a person span at offsets 0-12, a location span at
offsets 21-26) and finding nothing elsewhere. -/
def toyNLP : NLP := fun s =>
  if s = parisText then
    [{ text := "Barack Obama".toList, label_ := "PERSON", start_char := 0, end_char := 12 },
     { text := "Paris".toList, label_ := "GPE", start_char := 21, end_char := 26 }]
  else []

/-- A recognizer that finds no entities in any text. -/
def emptyNLP : NLP := fun _ => []

/-- The default command line: `--port 8099 --model en_core_web_sm`. -/
def defaultArgs : Args := { port := 8099, model := "en_core_web_sm" }

/-- A `spacy.load` that raises on every model name. -/
def failLoad : String → Except String NLP := fun _ => Except.error "E050"

/-- A `spacy.load` that succeeds with the empty recognizer. -/
def okLoad : String → Except String NLP := fun _ => Except.ok emptyNLP

/-- The globals after a successful `main` under `okLoad`/`defaultArgs`. -/
def loadedState : ServerState :=
  { nlp := some emptyNLP, model_name := some "en_core_web_sm" }

/-- A request body whose `text` field is absent. -/
def badBody : Body := [("txt", JsonValue.str "hi".toList)]

/-! Helper lemmas. -/

/-- Neither handler writes the process-wide globals. -/
theorem stepState_eq (st : ServerState) (r : Request) : stepState st r = st := by
  cases r <;> rfl

/-- Serving any request sequence leaves the globals unchanged. -/
theorem serveAll_id (reqs : List Request) (st : ServerState) : serveAll st reqs = st := by
  induction reqs generalizing st with
  | nil => rfl
  | cons r rs ih =>
    have h : serveAll st (r :: rs) = serveAll (stepState st r) rs := rfl
    rw [h, stepState_eq, ih]

/-- Rounding a nonnegative rational to an integer stays nonnegative. -/
theorem pyRoundInt_nonneg (q : ℚ) (h : 0 ≤ q) : 0 ≤ pyRoundInt q := by
  have hf : (0 : ℤ) ≤ ⌊q⌋ := Int.floor_nonneg.mpr h
  unfold pyRoundInt
  split_ifs <;> omega

/-- Rounding a nonnegative rational to one decimal stays nonnegative. -/
theorem pyRound1_nonneg (q : ℚ) (h : 0 ≤ q) : 0 ≤ pyRound1 q := by
  unfold pyRound1
  have h1 : (0 : ℤ) ≤ pyRoundInt (q * 10) :=
    pyRoundInt_nonneg _ (mul_nonneg h (by norm_num))
  have h2 : (0 : ℚ) ≤ (pyRoundInt (q * 10) : ℚ) := Int.cast_nonneg.mpr h1
  exact div_nonneg h2 (by norm_num)

/-! The claims. -/

/-- C1: for every request to `extract`, the response satisfies
`has_entities == (len(entities) > 0)`: the boolean is true exactly when
the entity sequence is non-empty. -/
theorem extract_has_entities_iff (nlp : NLP) (t0 t1 : ℚ) (req : ExtractRequest) :
    (extract nlp t0 t1 req).response.has_entities = true ↔
      0 < (extract nlp t0 t1 req).response.entities.length := by
  simp [extract]

/-- C1 witness, at the empty-text request under the example model. -/
theorem extract_has_entities_iff_w :
    (extract toyNLP 0 1 { text := [] }).response.has_entities = true ↔
      0 < (extract toyNLP 0 1 { text := [] }).response.entities.length :=
  extract_has_entities_iff toyNLP 0 1 { text := [] }

/-- C2: the `entities` field of the extract response is exactly the
sequence of entities the loaded model produces for the request text, in
the same order, each marshalled with that entity's span text, label,
start offset and end-exclusive offset — nothing added, dropped or
reordered by the handler. -/
theorem extract_entities_exact_marshal (nlp : NLP) (t0 t1 : ℚ) (req : ExtractRequest) :
    (extract nlp t0 t1 req).response.entities = (nlp req.text).map marshalEnt ∧
    ∀ ent : SpacyEnt, marshalEnt ent =
      { text := ent.text, label := ent.label_, start := ent.start_char, end_ := ent.end_char } :=
  ⟨rfl, fun _ => rfl⟩

/-- C3: when every entity the model reports for the request text has
in-range offsets and span text equal to the corresponding slice of the
input (the contract the spec gives the external recognizer), every
entity of the extract response satisfies
`0 <= start <= end <= len(input_text)` and
`input_text[start:end] == entity.text`. -/
theorem extract_entity_spans_valid (nlp : NLP) (t0 t1 : ℚ) (req : ExtractRequest)
    (h : ∀ ent ∈ nlp req.text,
      0 ≤ ent.start_char ∧ ent.start_char ≤ ent.end_char ∧
      ent.end_char ≤ (req.text.length : ℤ) ∧
      pySlice req.text ent.start_char ent.end_char = ent.text) :
    ∀ e ∈ (extract nlp t0 t1 req).response.entities,
      0 ≤ e.start ∧ e.start ≤ e.end_ ∧ e.end_ ≤ (req.text.length : ℤ) ∧
      pySlice req.text e.start e.end_ = e.text := by
  intro e he
  simp only [extract, List.mem_map] at he
  obtain ⟨ent, hent, rfl⟩ := he
  exact h ent hent

/-- C3 witness, on the spec's example text under the example model. -/
theorem extract_entity_spans_valid_w :
    (∀ ent ∈ toyNLP parisText,
      0 ≤ ent.start_char ∧ ent.start_char ≤ ent.end_char ∧
      ent.end_char ≤ (parisText.length : ℤ) ∧
      pySlice parisText ent.start_char ent.end_char = ent.text) ∧
    (∀ e ∈ (extract toyNLP 0 1 { text := parisText }).response.entities,
      0 ≤ e.start ∧ e.start ≤ e.end_ ∧ e.end_ ≤ (parisText.length : ℤ) ∧
      pySlice parisText e.start e.end_ = e.text) :=
  ⟨by decide, extract_entity_spans_valid toyNLP 0 1 { text := parisText } (by decide)⟩

/-- C4: a `/extract` body whose `text` field is missing or not a string
is rejected by validation as a client error before the handler runs:
the route yields the 422 validation error, and its outcome is the same
whatever the server state (so the handler body, which is the only part
reading the state, never executes). -/
theorem extract_invalid_body_rejected (st st2 : ServerState) (t0 t1 : ℚ) (body : Body)
    (h : isStringField (body.lookup "text") = false) :
    extractRoute st t0 t1 body = Except.error ClientError.validationError ∧
    extractRoute st t0 t1 body = extractRoute st2 t0 t1 body := by
  have hv : validateExtractRequest body = Except.error ClientError.validationError := by
    unfold validateExtractRequest
    cases hl : body.lookup "text" with
    | none => rfl
    | some v =>
      rw [hl] at h
      cases v with
      | str s => simp [isStringField] at h
      | num q => rfl
      | boolean b => rfl
      | null => rfl
      | composite => rfl
  constructor
  · unfold extractRoute; rw [hv]
  · unfold extractRoute; rw [hv]

/-- C4 witness, at a body whose only field is named `txt`. -/
theorem extract_invalid_body_rejected_w :
    isStringField (badBody.lookup "text") = false ∧
    (extractRoute initialState 0 1 badBody = Except.error ClientError.validationError ∧
     extractRoute initialState 0 1 badBody = extractRoute loadedState 0 1 badBody) :=
  ⟨rfl, extract_invalid_body_rejected initialState loadedState 0 1 badBody rfl⟩

/-- C5: if `spacy.load` raises in `main`, the process never reaches
`uvicorn.run`: the outcome is `loadFailed` with `_nlp` still `None`,
and is not `serverStarted` for any state or port. -/
theorem main_load_failure_no_server (loadModel : String → Except String NLP) (args : Args)
    (e : String) (h : loadModel args.model = Except.error e) :
    main loadModel args =
      MainResult.loadFailed { nlp := none, model_name := some args.model } e ∧
    ∀ (st : ServerState) (p : ℤ), main loadModel args ≠ MainResult.serverStarted st p := by
  have hm : main loadModel args =
      MainResult.loadFailed { nlp := none, model_name := some args.model } e := by
    unfold main; rw [h]
  refine ⟨hm, fun st p hc => ?_⟩
  rw [hm] at hc
  exact MainResult.noConfusion hc

/-- C5 witness, under a loader that raises on every model name. -/
theorem main_load_failure_no_server_w :
    failLoad defaultArgs.model = Except.error "E050" ∧
    (main failLoad defaultArgs =
      MainResult.loadFailed { nlp := none, model_name := some "en_core_web_sm" } "E050" ∧
     ∀ (st : ServerState) (p : ℤ),
       main failLoad defaultArgs ≠ MainResult.serverStarted st p) :=
  ⟨rfl, main_load_failure_no_server failLoad defaultArgs "E050" rfl⟩

/-- C6: once `main` has completed successfully, every `/health`
invocation returns status `"ok"` together with exactly the model
identifier supplied at startup, regardless of any prior request
traffic; in the embedding `health` is a total pure function of the
state, so it has no side effects and no failure mode. -/
theorem health_after_startup (loadModel : String → Except String NLP) (args : Args)
    (st : ServerState) (p : ℤ)
    (h : main loadModel args = MainResult.serverStarted st p) (reqs : List Request) :
    health (serveAll st reqs) = { status := "ok", model := some args.model } := by
  have hst : st.model_name = some args.model := by
    unfold main at h
    cases hl : loadModel args.model with
    | error e => rw [hl] at h; exact MainResult.noConfusion h
    | ok m =>
      rw [hl] at h
      injection h with h1 h2
      rw [← h1]
  rw [serveAll_id]
  unfold health
  rw [hst]

/-- C6 witness: after a successful startup, health is queried following
a health request and an extract request. -/
theorem health_after_startup_w :
    main okLoad defaultArgs = MainResult.serverStarted loadedState 8099 ∧
    health (serveAll loadedState [Request.healthReq, Request.extractReq 0 1 []]) =
      { status := "ok", model := some "en_core_web_sm" } :=
  ⟨rfl, health_after_startup okLoad defaultArgs loadedState 8099 rfl
    [Request.healthReq, Request.extractReq 0 1 []]⟩

/-- C7: with a monotonic clock (the second reading is at least the
first), every extract response has `duration_ms >= 0`, and
`duration_ms` equals the elapsed time in milliseconds rounded to one
decimal place. -/
theorem extract_duration_nonneg_rounded (nlp : NLP) (t0 t1 : ℚ) (req : ExtractRequest)
    (h : t0 ≤ t1) :
    0 ≤ (extract nlp t0 t1 req).response.duration_ms ∧
    (extract nlp t0 t1 req).response.duration_ms = pyRound1 ((t1 - t0) * 1000) := by
  refine ⟨?_, rfl⟩
  have hd : (0 : ℚ) ≤ (t1 - t0) * 1000 :=
    mul_nonneg (sub_nonneg.mpr h) (by norm_num)
  exact pyRound1_nonneg _ hd

/-- C7 witness, at clock readings 0 and 1. -/
theorem extract_duration_nonneg_rounded_w :
    (0 : ℚ) ≤ 1 ∧
    (0 ≤ (extract emptyNLP 0 1 { text := [] }).response.duration_ms ∧
     (extract emptyNLP 0 1 { text := [] }).response.duration_ms =
       pyRound1 ((1 - 0) * 1000)) :=
  ⟨by norm_num, extract_duration_nonneg_rounded emptyNLP 0 1 { text := [] } (by norm_num)⟩

/-- C8: the duration reported by `extract` is a function of the two
monotonic-clock readings alone — the reads taken immediately before and
after the `_nlp(req.text)` call — so it measures that span and is
unaffected by the request body or by anything else the handler does
(parsing and serialization happen outside the two reads). -/
theorem extract_times_model_call_only (nlp nlp2 : NLP) (req req2 : ExtractRequest)
    (t0 t1 : ℚ) :
    (extract nlp t0 t1 req).response.duration_ms = pyRound1 ((t1 - t0) * 1000) ∧
    (extract nlp t0 t1 req).response.duration_ms =
      (extract nlp2 t0 t1 req2).response.duration_ms :=
  ⟨rfl, rfl⟩

/-- C9: `extract` emits its log line exactly when at least one entity
was found, and that line carries the entity count, the measured
duration (the raw millisecond value handed to the `%.0f` formatter) and
the `(text, label)` pair of every found entity; with no entities, no
log line is emitted. -/
theorem extract_log_iff_entities_found (nlp : NLP) (t0 t1 : ℚ) (req : ExtractRequest) :
    (extract nlp t0 t1 req).logs =
      (if (extract nlp t0 t1 req).response.entities ≠ [] then
        [{ count := (extract nlp t0 t1 req).response.entities.length
           duration := (t1 - t0) * 1000
           pairs := (extract nlp t0 t1 req).response.entities.map fun e => (e.text, e.label) }]
      else []) := rfl

/-- C10: before `main` has run, both globals are `None`; `/health` then
returns `{"status": "ok", "model": null}`, and any `/extract`
invocation fails because `_nlp` is not callable. -/
theorem initial_state_health_null_extract_fails :
    initialState.nlp = none ∧ initialState.model_name = none ∧
    health initialState = { status := "ok", model := none } ∧
    ∀ (t0 t1 : ℚ) (req : ExtractRequest), extractHandler initialState t0 t1 req = none :=
  ⟨rfl, rfl, rfl, fun _ _ _ => rfl⟩

end Sidecar
